import Mathlib

/-!
Verification development for `kml_builder.py`: a batch converter that reads a
catalog of outings and emits a single KML document.  The Python source is
embedded shallowly: pure string templating becomes Lean string functions,
the module-level `try`/`except` pipeline becomes explicit `Except` plumbing,
JSON optionality becomes `Option`, the GPX files on disk become an explicit
environment `Env`, and the floating point coordinates become exact rationals
(the only float-valued constant whose numeric value matters, `alpha = 0.9`,
satisfies `0.9 * 255 == 229.5` exactly in IEEE double, so the rational model
agrees with the double computation there).

Python `str(int)` is modelled by `natStr`, `str.replace` by `pyReplace`,
`%.5f` formatting by `format5` (round half to even on the exact rational),
and `f"{n:02X}"` by `pad2hex`.
-/

/-- Geographic point, `(latitude, longitude)` as in the numpy array built by
`optimize_segment_rdp`. -/
abbrev Pt : Type := ℚ × ℚ

/-- Runtime errors of the Python program that are relevant to the pipeline:
`AssertionError` (with its message), `NameError` (use of an unbound local such
as `date_str` when neither a track nor an explicit field provides it),
`ValueError` (raised by `datetime.date` for an out-of-range month/day),
an I/O error (missing GPX file) and `TypeError` (raised by `str + object`). -/
inductive Err where
  | assertionError (msg : String)
  | nameError
  | valueError
  | ioError
  | typeError
deriving DecidableEq

/-- Digit character, `chr(48 + n)` for `n < 10`. -/
def digitChar (n : Nat) : Char := Char.ofNat (48 + n)

/-- Little-endian decimal digits of `n`, with explicit fuel so that the
definition is structural (the fuel `n` itself always suffices). -/
def natDigitsAux : Nat → Nat → List Char
  | 0, _ => []
  | _ + 1, 0 => []
  | fuel + 1, n + 1 => digitChar ((n + 1) % 10) :: natDigitsAux fuel ((n + 1) / 10)

/-- Decimal rendering of a natural number, Python `str(n)`. -/
def natStr (n : Nat) : String :=
  if n = 0 then "0" else String.mk (natDigitsAux n n).reverse

/-- Zero-pad a decimal string on the left to width `w`. -/
def padLeftZero (w : Nat) (s : String) : String :=
  String.mk (List.replicate (w - s.length) '0') ++ s

/-- Python `f"{n:02d}"`. -/
def pad2 (n : Nat) : String := padLeftZero 2 (natStr n)

/-- Python `f"{n:04d}"` (the `%Y` rendering of a four-digit year). -/
def pad4 (n : Nat) : String := padLeftZero 4 (natStr n)

/-- Uppercase hexadecimal digit character. -/
def hexDigitChar (n : Nat) : Char :=
  if n < 10 then Char.ofNat (48 + n) else Char.ofNat (55 + n)

/-- Little-endian hexadecimal digits, fuelled like `natDigitsAux`. -/
def hexDigitsAux : Nat → Nat → List Char
  | 0, _ => []
  | _ + 1, 0 => []
  | fuel + 1, n + 1 => hexDigitChar ((n + 1) % 16) :: hexDigitsAux fuel ((n + 1) / 16)

/-- Python `f"{n:02X}"`: uppercase hexadecimal, left-padded to width 2. -/
def pad2hex (n : Nat) : String :=
  padLeftZero 2 (if n = 0 then "0" else String.mk (hexDigitsAux n n).reverse)

/-- Python `int()` truncation toward zero on an exact rational. -/
def pyInt (q : ℚ) : ℤ := if q < 0 then -⌊-q⌋ else ⌊q⌋

/-- Non-overlapping left-to-right replacement on character lists (the
semantics of Python `str.replace` for a non-empty pattern); fuelled by the
length of the scanned list so the recursion is structural. -/
def replaceFuel (pat rep : List Char) : Nat → List Char → List Char
  | 0, l => l
  | _ + 1, [] => []
  | fuel + 1, c :: rest =>
    if pat.isPrefixOf (c :: rest) then
      rep ++ replaceFuel pat rep fuel (rest.drop (pat.length - 1))
    else c :: replaceFuel pat rep fuel rest

/-- Python `s.replace(pat, rep)` for a non-empty pattern. -/
def pyReplace (s pat rep : String) : String :=
  String.mk (replaceFuel pat.data rep.data s.data.length s.data)

/-- Split a character list at newline characters (Python `s.split("\n")`). -/
def splitNl : List Char → List (List Char)
  | [] => [[]]
  | c :: rest =>
    if c = '\n' then [] :: splitNl rest
    else
      match splitNl rest with
      | [] => [[c]]
      | l :: ls => (c :: l) :: ls

/-- The source's `indent` helper: prefix every line of `s` with `n` tabs. -/
def indentStr (s : String) (n : Nat) : String :=
  String.intercalate "\n" ((splitNl s.data).map fun l =>
    String.mk (List.replicate n '\t' ++ l))

/-- Base64 alphabet. -/
def b64table : List Char :=
  "ABCDEFGHIJKLMNOPQRSTUVWXYZabcdefghijklmnopqrstuvwxyz0123456789+/".data

/-- Character of the base64 alphabet at index `n`. -/
def b64digit (n : Nat) : Char := b64table.getD n 'A'

/-- Standard base64 encoding of a byte list (the `base64.b64encode` call on
the ASCII bytes of the SVG icon). -/
def base64Encode : List Nat → String
  | [] => ""
  | [a] =>
    String.mk [b64digit (a / 4), b64digit (a % 4 * 16)] ++ "=="
  | [a, b] =>
    String.mk [b64digit (a / 4), b64digit (a % 4 * 16 + b / 16),
      b64digit (b % 16 * 4)] ++ "="
  | a :: b :: c :: rest =>
    String.mk [b64digit (a / 4), b64digit (a % 4 * 16 + b / 16),
      b64digit (b % 16 * 4 + c / 64), b64digit (c % 64)] ++ base64Encode rest

/-- `kml_title` constant. -/
def kml_title : String := "Cheryl &amp; Stefan\x27s Outings"

/-- `gpx_data_dir` constant. -/
def gpx_data_dir : String := "data/"

/-- `photo_base_url` constant. -/
def photo_base_url : String := "https://stefalie.smugmug.com/"

/-- `strava_base_url` constant. -/
def strava_base_url : String := "https://www.strava.com/activities/"

/-- `line_width` constant. -/
def line_width : Nat := 8

/-- `marker_icon_size` constant. -/
def marker_icon_size : Nat := 48

/-- The shared opacity `alpha = 0.9` of every style, as an exact rational. -/
def alphaConst : ℚ := 9 / 10

/-- Python `str(0.9)`, the rendering of `alpha` interpolated into the SVG. -/
def alphaLiteral : String := "0.9"

/-- The `styles` dict, in insertion order: activity type to
`(r, g, b, alpha)`. -/
def styles : List (String × (Nat × Nat × Nat × ℚ)) :=
  [("Hike", (255, 0, 0, alphaConst)),
   ("ViaFerrata", (255, 0, 0, alphaConst)),
   ("Hochtour", (139, 0, 139, alphaConst)),
   ("Climb", (139, 0, 139, alphaConst)),
   ("Skitour", (0, 0, 255, alphaConst)),
   ("Run", (55, 180, 0, alphaConst)),
   ("Bike", (255, 136, 0, alphaConst)),
   ("XC-Ski", (0, 227, 216, alphaConst))]

/-- The keys of `styles`, in order (used both for membership tests and for
the alternation in the track-filename pattern). -/
def styleKeys : List String := styles.map (fun s => s.1)

/-- `kml_hex_color`: pack a style color as `aabbggrr`, alpha channel obtained
by `int(c[3]*255)` (truncation), each channel two uppercase hex digits. -/
def kml_hex_color (c : Nat × Nat × Nat × ℚ) : String :=
  pad2hex (pyInt (c.2.2.2 * 255)).toNat ++ pad2hex c.2.2.1 ++
    pad2hex c.2.1 ++ pad2hex c.1

/-- `marker_icon_svg` filled in with the marker size and a style color; the
alpha is interpolated by Python as `str(0.9)`. -/
def marker_icon_svg_filled (r g b : Nat) : String :=
  "<svg height=\"" ++ natStr marker_icon_size ++ "\" width=\"" ++
    natStr marker_icon_size ++
    "\" xmlns=\"http://www.w3.org/2000/svg\" viewBox=\"0 0 100 100\"><path fill=\"rgba(" ++
    natStr r ++ "," ++ natStr g ++ "," ++ natStr b ++ "," ++ alphaLiteral ++
    ")\" d=\"M50 14a24 24 0 00-24 24c0 13.3 24 48 24 48s24-34.8 24-48a24 24 0 00-24-24zm0 36.5a12 12 0 110-24 12 12 0 010 24z\"/></svg>"

/-- `svg_base64_data_url`: the tinted marker icon as a data URI. -/
def svg_base64_data_url (c : Nat × Nat × Nat × ℚ) : String :=
  "data:image/svg+xml;base64," ++
    base64Encode ((marker_icon_svg_filled c.1 c.2.1 c.2.2.1).data.map Char.toNat)

/-- `template_style` filled in. -/
def template_style (style_name color : String) (width : Nat) (icon_url : String) : String :=
  "<Style id=\"" ++ style_name ++ "\">\n\t<LineStyle>\n\t\t<color>" ++ color ++
    "</color>\n\t\t<width>" ++ natStr width ++
    "</width>\n\t</LineStyle>\n\t<IconStyle>\n\t\t<Icon>\n\t\t\t<href>" ++ icon_url ++
    "</href>\n\t\t</Icon>\n\t\t<hotSpot x=\"0.5\" y=\"0.0\" xunits=\"fraction\" yunits=\"fraction\"/>\n\t</IconStyle>\n</Style>"

/-- `generate_style` for one entry of `styles`. -/
def generate_style (s : String × (Nat × Nat × Nat × ℚ)) : String :=
  template_style s.1 (kml_hex_color s.2) line_width (svg_base64_data_url s.2)

/-- `kml_styles` as built at module level (before the final indentation). -/
def kml_styles : String := String.intercalate "\n" (styles.map generate_style)

/-- `template_placemark` filled in. -/
def template_placemark (style_name description geometry : String) : String :=
  "<Placemark>\n\t<styleUrl>#" ++ style_name ++
    "</styleUrl>\n\t<description><![CDATA[" ++ description ++
    "]]></description>\n" ++ geometry ++ "\n</Placemark>"

/-- `template_multigeometry` filled in. -/
def template_multigeometry (geometries : String) : String :=
  "<MultiGeometry>\n" ++ geometries ++ "\n</MultiGeometry>"

/-- `template_point` filled in. -/
def template_point (coordinate : String) : String :=
  "<Point>\n\t<altitudeMode>clampToGround</altitudeMode>\n\t<coordinates>" ++
    coordinate ++ "</coordinates>\n</Point>"

/-- `template_linestring` filled in. -/
def template_linestring (coordinates : String) : String :=
  "<LineString>\n\t<altitudeMode>clampToGround</altitudeMode>\n\t<tessellate>1</tessellate>\n\t<coordinates>" ++
    coordinates ++ "</coordinates>\n</LineString>"

/-- `template_body` filled in (styles and placemarks already indented). -/
def template_body (stylesPart placemarksPart : String) : String :=
  "<?xml version=\"1.0\" encoding=\"utf-8\"?>\n<kml xmlns=\"http://www.opengis.net/kml/2.2\">\n\t<Document>\n\t\t<name>" ++
    kml_title ++ "</name>\n" ++ stylesPart ++ "\n" ++ placemarksPart ++
    "\n\t</Document>\n</kml>"

/-!
Curve simplification.  `optimize_segment_rdp` delegates to the third-party
`rdp` package (`rdp.rdp(arr, algo="iter", return_mask=True, epsilon=eps)`),
whose source is not part of this repository.  Modelled from the spec:
recursive perpendicular-distance (Douglas-Peucker) simplification — at each
step find the first interior point of maximum perpendicular distance from the
chord joining the endpoints; if that distance exceeds the tolerance, keep the
point and recurse on both halves, otherwise drop all interior points.  The
model compares SQUARED distances against the squared tolerance `eSq`, which
for a nonnegative tolerance is equivalent to the library's comparison of true
distances, and uses exact rational arithmetic in the same 2D (lat, long)
coordinate space with no geodesic correction, as the spec states.
-/

/-- Squared perpendicular distance of `p` from the line through `a` and `b`
(squared distance to `a` when the chord is degenerate, following the
library's point-line distance). -/
def pdistSq (p a b : Pt) : ℚ :=
  if a = b then (p.1 - a.1) ^ 2 + (p.2 - a.2) ^ 2
  else
    ((b.1 - a.1) * (a.2 - p.2) - (b.2 - a.2) * (a.1 - p.1)) ^ 2 /
      ((b.1 - a.1) ^ 2 + (b.2 - a.2) ^ 2)

/-- Split a list of interior points at its first point of maximum squared
perpendicular distance from the chord `(a, b)`: returns
`(before, argmax, after)`, or `none` for the empty list.  A later point
displaces the current candidate only when its distance is strictly
greater, matching the `d > dmax` scan of the library. -/
def splitMax (a b : Pt) : List Pt → Option (List Pt × Pt × List Pt)
  | [] => none
  | p :: ps =>
    match splitMax a b ps with
    | none => some ([], p, [])
    | some (pre, q, post) =>
      if pdistSq p a b < pdistSq q a b then some (p :: pre, q, post)
      else some ([], p, ps)

/-- One step of Douglas-Peucker on a chord `(a, b)` with interior `mid`:
either drop all interior points, or split at the first farthest interior
point and hand the two halves to `rec` (gluing the halves on the shared
split point). -/
def rdpStep (eSq : ℚ) (rec : Pt → List Pt → Pt → List Pt)
    (a : Pt) (mid : List Pt) (b : Pt) : List Pt :=
  match splitMax a b mid with
  | none => [a, b]
  | some (pre, x, post) =>
    if eSq < pdistSq x a b then rec a pre x ++ (rec x post b).tail
    else [a, b]

/-- Douglas-Peucker on a chord `(a, b)` with interior `mid`, fuelled by
`mid.length` (any fuel at least `mid.length` computes the same list, see
`rdpAuxF_fuel`). -/
def rdpAuxF (eSq : ℚ) : Nat → Pt → List Pt → Pt → List Pt
  | 0, a, _, b => [a, b]
  | fuel + 1, a, mid, b => rdpStep eSq (rdpAuxF eSq fuel) a mid b

/-- Douglas-Peucker on a chord with exactly enough fuel. -/
def rdpAux (eSq : ℚ) (a : Pt) (mid : List Pt) (b : Pt) : List Pt :=
  rdpAuxF eSq mid.length a mid b

/-- Douglas-Peucker simplification of a point sequence with squared
tolerance `eSq`; sequences of fewer than two points are untouched. -/
def rdp (eSq : ℚ) : List Pt → List Pt
  | [] => []
  | [p] => [p]
  | a :: b :: rest =>
    rdpAux eSq a ((b :: rest).dropLast) ((b :: rest).getLastD b)

/-- The source's `rdp_epsilon = 0.0002`, squared, as an exact rational. -/
def rdp_epsilon_sq : ℚ := (2 / 10000) ^ 2

/-- `optimize_segment_rdp` on a segment's point list. -/
def optimize_segment_rdp (seg : List Pt) : List Pt := rdp rdp_epsilon_sq seg

/-!
Track filename grammar.  The source builds
`track_file_format = "^DATE__TYPE__TITLE(?:__(\d))?.gpx$"` where `DATE` is
`([0-9]{4}-[0-9]{2}-[0-9]{2})`, `TYPE` the alternation of the style keys and
`TITLE` is `(\S+?)` (lazy).  The parser below follows the backtracking
semantics of `re.search` on this anchored pattern: the date is fixed-width,
no style key is a prefix of another (so the alternation is deterministic),
the lazy title grows one character at a time, and for each title length the
optional index group is preferred present.  Note the unescaped `.` before
`gpx`: it matches any single character. -/

/-- Match the date part `[0-9]{4}-[0-9]{2}-[0-9]{2}` followed by `__`;
returns the date text and the remainder. -/
def parseDatePart : List Char → Option (String × List Char)
  | a :: b :: c :: d :: '-' :: e :: f :: '-' :: g :: h :: '_' :: '_' :: rest =>
    if ([a, b, c, d, e, f, g, h].all Char.isDigit) then
      some (String.mk [a, b, c, d, '-', e, f, '-', g, h], rest)
    else none
  | _ => none

/-- Match one of the style keys followed by `__`; the keys are tried in
order, and since no key is a prefix of another at most one can match. -/
def parseTypePart : List String → List Char → Option (String × List Char)
  | [], _ => none
  | k :: ks, r =>
    let kd := k.data ++ ['_', '_']
    if kd.isPrefixOf r then some (k, r.drop kd.length) else parseTypePart ks r

/-- Match the suffix `__(\d)` followed by any one character and `gpx` at end
of input; returns the index digit. -/
def matchIdxSuffix : List Char → Option Char
  | '_' :: '_' :: d :: _ :: 'g' :: 'p' :: 'x' :: [] =>
    if d.isDigit then some d else none
  | _ => none

/-- Match any one character followed by `gpx` at end of input (the suffix
with the optional index group absent). -/
def matchPlainSuffix : List Char → Bool
  | _ :: 'g' :: 'p' :: 'x' :: [] => true
  | _ => false

/-- Lazy scan for the title `(\S+?)`: extend the (non-empty, whitespace-free)
title one character at a time, at each length first trying the suffix with
the index group, then without. -/
def titleScan (acc : List Char) : List Char → Option (List Char × Option Char)
  | [] => none
  | c :: rest =>
    if c.isWhitespace then none
    else
      match matchIdxSuffix rest with
      | some d => some (acc ++ [c], some d)
      | none =>
        if matchPlainSuffix rest then some (acc ++ [c], none)
        else titleScan (acc ++ [c]) rest

/-- `re.search(track_file_format, s)`: date, type, raw title and optional
index digit. -/
def parseTrackFile (s : String) : Option (String × String × String × Option Char) :=
  match parseDatePart s.data with
  | none => none
  | some (d, r1) =>
    match parseTypePart styleKeys r1 with
    | none => none
    | some (ty, r2) =>
      match titleScan [] r2 with
      | none => none
      | some (t, idx) => some (d, ty, String.mk t, idx)

/-- Expected filename of the `k`-th (0-based) part of a multi-part track. -/
def trackFileName (d ty t : String) (k : Nat) : String :=
  d ++ "__" ++ ty ++ "__" ++ t ++ "__" ++ natStr (k + 1) ++ ".gpx"

/-- The sequential-numbering loop over `outing["tracks"]`: the `k`-th file
must be exactly the common date, type and raw title with index `k + 1`. -/
def checkSeq (d ty t : String) : Nat → List String → Bool
  | _, [] => true
  | k, f :: fs => (f = trackFileName d ty t k) && checkSeq d ty t (k + 1) fs

/-- Lines 159-176 of the source: regex-match the first track filename and
enforce the multi-track naming rules; returns date, type and RAW title (the
caller replaces underscores for display).  `all` is the full track list. -/
def resolveTrackMeta (first : String) (all : List String) : Except Err (String × String × String) :=
  match parseTrackFile first with
  | none => .error (.assertionError ("Gpx file name cannot be regex matched: " ++ first))
  | some (d, ty, t, idx) =>
    if 1 < all.length && idx.isNone then
      .error (.assertionError ("Wrong multi track format: " ++ first))
    else
      match idx with
      | none => .ok (d, ty, t)
      | some dc =>
        if dc = '1' then
          if checkSeq d ty t 0 all then .ok (d, ty, t)
          else .error (.assertionError "Wrong multi track format: ")
        else
          .error (.assertionError "The first multi track files must have a \"__1\" suffix: ")

/-!
The outing pipeline.  The JSON catalog entry becomes `Outing` (absent keys
are `none`); the GPX files on disk become `Env`; the three module-level
"encountered" sets become the state `St` threaded through the placemarks;
`print`ed notices are collected in a list.  Assertion messages keep their
static text; the interpolated record/filename reprs are elided where they
would require a repr function, which no claim inspects.
-/

/-- One explicit point of an outing, `(lat, long)`; the `generate_point`
assertion that a point carries exactly a float `lat` and a float `long` is
discharged by this typing. -/
structure Gpx where
  tracks : List (List (List Pt))
  numWaypoints : Nat
  numRoutes : Nat
deriving DecidableEq

/-- The file system visible to the program: GPX path to parsed content. -/
structure Env where
  gpx : String → Option Gpx

/-- One outing record of the catalog. -/
structure Outing where
  points : Option (List Pt) := none
  tracks : Option (List String) := none
  date : Option String := none
  type : Option String := none
  title : Option String := none
  photoUrl : Option String := none
  stravaUrl : Option (List String) := none
  note : Option String := none
deriving DecidableEq

/-- The three `encountered_*` sets (as lists of distinct elements). -/
structure St where
  titles : List String
  dates : List String
  stravaUrls : List String
deriving DecidableEq

/-- All sets empty, the state at module start. -/
def initSt : St := ⟨[], [], []⟩

/-- Set insertion on the list representation. -/
def listInsert (x : String) (l : List String) : List String :=
  if x ∈ l then l else x :: l

/-- `num_points` of an outing (0 when the key is absent). -/
def numPoints (o : Outing) : Nat := (o.points.getD []).length

/-- `num_tracks` of an outing. -/
def numTracks (o : Outing) : Nat := (o.tracks.getD []).length

/-- Round half to even of an exact rational (the rounding of `%.5f` applied
to the exact value). -/
def roundHalfEven (x : ℚ) : ℤ :=
  let f := ⌊x⌋
  if x - f < 1 / 2 then f
  else if 1 / 2 < x - f then f + 1
  else if f % 2 = 0 then f else f + 1

/-- Python `"%.5f" % q` on the exact rational: fixed five decimal places. -/
def format5 (q : ℚ) : String :=
  let n := roundHalfEven (q * 100000)
  let sign := if n < 0 ∨ (n = 0 ∧ q < 0) then "-" else ""
  sign ++ natStr (n.natAbs / 100000) ++ "." ++ padLeftZero 5 (natStr (n.natAbs % 100000))

/-- `template_coordinate` filled in: longitude first, then latitude. -/
def coordStr (long lat : ℚ) : String := format5 long ++ "," ++ format5 lat

/-- `generate_point` on a `(lat, long)` pair. -/
def generate_point (p : Pt) : String := template_point (coordStr p.2 p.1)

/-- `generate_linestring`: open and validate the GPX file, simplify its
single segment, and render the space-separated coordinate list. -/
def generate_linestring (env : Env) (track : String) : Except Err String :=
  match env.gpx (gpx_data_dir ++ track) with
  | none => .error .ioError
  | some g =>
    match g.tracks, g.numWaypoints, g.numRoutes with
    | [t], 0, 0 =>
      match t with
      | [seg] =>
        .ok (template_linestring (String.intercalate " "
          ((optimize_segment_rdp seg).map fun p => coordStr p.2 p.1)))
      | _ => .error (.assertionError "")
    | _, _, _ =>
      .error (.assertionError ("We expect exactly 1 track per gpx file: " ++ gpx_data_dir ++ track))

/-- The geometry body before any wrapping: the point elements first, then
the linestring elements, each group newline-joined and the two groups
concatenated directly (as the source's `geom +=` does). -/
def geomCore (env : Env) (o : Outing) : Except Err String :=
  match (o.tracks.getD []).mapM (generate_linestring env) with
  | .error e => .error e
  | .ok ls =>
    .ok (String.intercalate "\n" ((o.points.getD []).map generate_point) ++
      String.intercalate "\n" ls)

/-- Lines 228-258: wrap the geometry body in `<MultiGeometry>` exactly when
there is more than one geometry source, then indent once more. -/
def genGeometry (env : Env) (o : Outing) : Except Err String :=
  match geomCore env o with
  | .error e => .error e
  | .ok core =>
    if 1 < numPoints o + numTracks o then
      .ok (indentStr (template_multigeometry (indentStr core 1)) 1)
    else .ok (indentStr core 1)

/-- The `^DATE$` re-check of line 194. -/
def isDateFmt (s : String) : Bool :=
  match s.data with
  | [a, b, c, d, '-', e, f, '-', g, h] => [a, b, c, d, e, f, g, h].all Char.isDigit
  | _ => false

/-- Numeric value of a digit character. -/
def charDigit (c : Char) : Nat := c.toNat - 48

/-- Gregorian leap year, as `datetime.date` uses. -/
def isLeapYear (y : Nat) : Bool := (y % 4 = 0 && !(y % 100 = 0)) || y % 400 = 0

/-- Days in a month, as `datetime.date` validates. -/
def daysInMonth (y m : Nat) : Nat :=
  if m = 2 then (if isLeapYear y then 29 else 28)
  else if m = 4 ∨ m = 6 ∨ m = 9 ∨ m = 11 then 30 else 31

/-- English month names (`%B`). -/
def monthNames : List String :=
  ["January", "February", "March", "April", "May", "June", "July",
   "August", "September", "October", "November", "December"]

/-- Lines 200-201: construct `date(int(s[:4]), int(s[5:7]), int(s[8:10]))`
(raising `ValueError` on an out-of-range component, as `datetime.date`
does), render it as `%B %d, %Y` and strip the zero-padding of the day via
`.replace(" 0", " ")`. -/
def mkDateFormatted (s : String) : Except Err String :=
  match s.data with
  | [y1, y2, y3, y4, _, m1, m2, _, d1, d2] =>
    let y := ((charDigit y1 * 10 + charDigit y2) * 10 + charDigit y3) * 10 + charDigit y4
    let m := charDigit m1 * 10 + charDigit m2
    let dd := charDigit d1 * 10 + charDigit d2
    if 1 ≤ y ∧ 1 ≤ m ∧ m ≤ 12 ∧ 1 ≤ dd ∧ dd ≤ daysInMonth y m then
      .ok (pyReplace (monthNames.getD (m - 1) "" ++ " " ++ pad2 dd ++ ", " ++ pad4 y) " 0" " ")
    else .error .valueError
  | _ => .error .valueError

/-- The optional photo paragraph of the description. -/
def photoPart (o : Outing) : String :=
  match o.photoUrl with
  | none => ""
  | some u => "<p>See <a href=\"" ++ photo_base_url ++ u ++ "\" target=\"_blank\">photos</a>.</p>"

/-- The loop of lines 214-216: each URL must be globally fresh; every URL
seen is added to the set. -/
def addStravaUrls : List String → List String → Except Err (List String)
  | seen, [] => .ok seen
  | seen, u :: us =>
    if u ∈ seen then .error (.assertionError ("Already encountered Strava URL: " ++ u))
    else addStravaUrls (listInsert u seen) us

/-- Lines 210-222: the optional Strava paragraph; a present-but-empty list
is an assertion failure, duplicates are fatal, and the link text is plural
with 1-based numbering when there is more than one URL. -/
def stravaPart (o : Outing) (seen : List String) : Except Err (String × List String) :=
  match o.stravaUrl with
  | none => .ok ("", seen)
  | some urls =>
    match urls with
    | [] => .error (.assertionError "A \x27stravaUrl\x27 entry cannot be empty: ")
    | u0 :: _ =>
      match addStravaUrls seen urls with
      | .error e => .error e
      | .ok seen2 =>
        let links :=
          if 1 < urls.length then
            String.intercalate ", " (urls.enum.map fun iu =>
              "<a href=\"" ++ strava_base_url ++ iu.2 ++ "\" target=\"_blank\">tracks " ++
                natStr (iu.1 + 1) ++ "</a>")
          else "<a href=\"" ++ strava_base_url ++ u0 ++ "\" target=\"_blank\">tracks</a>"
        .ok ("<p>See tracks on Strava: " ++ links ++ ".</p>", seen2)

/-- The optional free-form note paragraph. -/
def notePart (o : Outing) : String :=
  match o.note with
  | none => ""
  | some n => "<p>" ++ n ++ "</p>"

/-- Lines 159-176 as seen by the rest of `generate_placemark`: metadata
derived from track filenames when tracks are referenced (`none` when the
outing has no tracks, so the locals stay unbound). -/
def derivedMeta (o : Outing) : Except Err (Option (String × String × String)) :=
  match o.tracks with
  | some (first :: rest) => (resolveTrackMeta first (first :: rest)).map some
  | _ => .ok none

/-- Notice lines printed for an already-seen title or date. -/
def noticeTitle (t : String) : String := "NOTE: Already encountered title: " ++ t

/-- Notice line for an already-seen date. -/
def noticeDate (d : String) : String := "NOTE: Already encountered date: " ++ d

/-- The assertion message of line 194 (static part). -/
def metaMsg : String := "Every outing needs a valid title, type, and date: "

/-- `generate_placemark`: returns the placemark string and updated state, or
the error that aborts the run, together with the notices printed before that
point.  Uses of unbound locals (`title`, `date_str`, `activity_type` when
neither a track filename nor an explicit field supplies them) are
`NameError`s, placed where the first use occurs in the source. -/
def generate_placemark (env : Env) (st : St) (o : Outing) :
    Except Err (String × St) × List String :=
  match derivedMeta o with
  | .error e => (.error e, [])
  | .ok meta =>
    match o.title <|> meta.map (fun m => pyReplace m.2.2 "_" " ") with
    | none => (.error .nameError, [])
    | some title =>
      let titleNotice := if title ∈ st.titles then [noticeTitle title] else []
      match o.date <|> meta.map (fun m => m.1) with
      | none => (.error .nameError, titleNotice)
      | some dateStr =>
        let notices := titleNotice ++ (if dateStr ∈ st.dates then [noticeDate dateStr] else [])
        let st1 : St := { st with titles := listInsert title st.titles,
                                  dates := listInsert dateStr st.dates }
        if title.length = 0 then (.error (.assertionError metaMsg), notices)
        else
          match o.type <|> meta.map (fun m => m.2.1) with
          | none => (.error .nameError, notices)
          | some ty =>
            if !(styleKeys.contains ty) then (.error (.assertionError metaMsg), notices)
            else if !(isDateFmt dateStr) then (.error (.assertionError metaMsg), notices)
            else if numPoints o + numTracks o = 0 then
              (.error (.assertionError "An outing needs at least one track or point: "), notices)
            else
              match mkDateFormatted dateStr with
              | .error e => (.error e, notices)
              | .ok dateFormatted =>
                let desc1 := "<h4>" ++ title ++ "</h4><p>" ++ ty ++ " on " ++
                  dateFormatted ++ ".</p>" ++ photoPart o
                match stravaPart o st1.stravaUrls with
                | .error e => (.error e, notices)
                | .ok (sPart, seen2) =>
                  let desc := desc1 ++ sPart ++ notePart o
                  match genGeometry env o with
                  | .error e => (.error e, notices)
                  | .ok geom =>
                    (.ok (template_placemark ty desc geom, { st1 with stravaUrls := seen2 }),
                      notices)

/-- The `map(generate_placemark, outings)` consumed by `"\n".join`: process
the outings in catalog order, threading the state; the first exception
aborts. -/
def processOutings (env : Env) (st : St) : List Outing → Except Err (List String × St) × List String
  | [] => (.ok ([], st), [])
  | o :: os =>
    match generate_placemark env st o with
    | (.error e, ns) => (.error e, ns)
    | (.ok (pm, st2), ns) =>
      match processOutings env st2 os with
      | (.error e, ns2) => (.error e, ns ++ ns2)
      | (.ok (pms, stf), ns2) => (.ok (pm :: pms, stf), ns ++ ns2)

/-- The body of the `try` block up to `kml_all` (lines 263-267): join the
placemarks, indent styles and placemarks, fill the document template. -/
def buildKml (env : Env) (outings : List Outing) : Except Err String × List String :=
  match processOutings env initSt outings with
  | (.error e, ns) => (.error e, ns)
  | (.ok (pms, _), ns) =>
    (.ok (template_body (indentStr kml_styles 2) (indentStr (String.intercalate "\n" pms) 2)), ns)

/-- A Python value as far as `+` is concerned: a string or an exception
object (the `AssertionError` bound by `except ... as error_msg`). -/
inductive PyVal where
  | vstr (s : String)
  | vexc (msg : String)

/-- Python `str.__add__`: concatenation with a string; adding an exception
object raises `TypeError`. -/
def pyStrAdd (s : String) (v : PyVal) : Except Err String :=
  match v with
  | .vstr t => .ok (s ++ t)
  | .vexc _ => .error .typeError

/-- The `except AssertionError` handler of lines 271-273: it evaluates
`"ERROR: " + error_msg` where `error_msg` is the exception OBJECT, so the
addition itself raises before anything is printed. -/
def exceptHandler (emsg : String) : Except Err (List String) :=
  match pyStrAdd "ERROR: " (.vexc emsg) with
  | .error e => .error e
  | .ok line => .ok [line, "Aborting ..."]

/-- The whole module-level program around the `try` block: given the GPX
environment, the catalog and the previous content of the output file,
returns the resulting content of the output file, the printed lines, and
the uncaught exception if any.  The output file is opened for writing only
after `kml_all` is fully built, so on any failure it keeps `prev`. -/
def programRun (env : Env) (outings : List Outing) (prev : String) :
    String × List String × Option Err :=
  match buildKml env outings with
  | (.ok kml, ns) => (kml, ns, none)
  | (.error (.assertionError m), ns) =>
    match exceptHandler m with
    | .ok lines => (prev, ns ++ lines, none)
    | .error e => (prev, ns, some e)
  | (.error e, ns) => (prev, ns, some e)

/-- An environment with no GPX files at all. -/
def env0 : Env := ⟨fun _ => none⟩

/-- A valid points-only outing used as a concrete witness input. -/
def outingOk : Outing :=
  { points := some [(47, 8)], title := some "Solo", type := some "Run",
    date := some "2024-01-02" }

/-- A valid outing with two explicit points and no tracks (the end-to-end
example of the composite-geometry claim). -/
def outingTwoPoints : Outing :=
  { points := some [(47, 8), (465 / 10, 75 / 10)], title := some "Two Points",
    type := some "Hike", date := some "2023-06-15" }

/-- An otherwise valid outing whose `stravaUrl` key is present but empty. -/
def outingEmptyStrava : Outing :=
  { points := some [(47, 8)], title := some "T", type := some "Hike",
    date := some "2023-06-15", stravaUrl := some [] }

/-- A valid outing carrying one Strava URL. -/
def outingStrava : Outing :=
  { points := some [(47, 8)], title := some "WithLink", type := some "Bike",
    date := some "2024-03-03", stravaUrl := some ["123"] }

/-- A catalog repeating the same valid outing twice: its title and its date
are each seen twice. -/
def catalogDup : List Outing := [outingOk, outingOk]

/-- Character class of `f"{n:02X}"` output: a decimal digit or an uppercase
letter `A`-`F`. -/
def isUpperHexDigit (c : Char) : Bool :=
  c.isDigit || (65 ≤ c.toNat && c.toNat ≤ 70)

/-- The geometry emitted for `outingTwoPoints`: a MultiGeometry wrapping the
two point elements (not a bare Point). -/
def twoPointGeom : String :=
  indentStr (template_multigeometry (indentStr
    (String.intercalate "\n" ((outingTwoPoints.points.getD []).map generate_point) ++
     String.intercalate "\n" ([] : List String)) 1)) 1

/-!
Theorems.  First the Douglas-Peucker lemmas: decomposition and
characterisation of `splitMax`, the shape of `rdpAuxF`, fuel irrelevance,
and the idempotence core; then the per-claim theorems.
-/

theorem splitMax_append (a b : Pt) (l pre post : List Pt) (x : Pt)
    (h : splitMax a b l = some (pre, x, post)) : l = pre ++ x :: post := by
  induction l generalizing pre x post with
  | nil => simp [splitMax] at h
  | cons p ps ih =>
    cases hs : splitMax a b ps with
    | none =>
      have hps : ps = [] := by
        cases ps with
        | nil => rfl
        | cons r rs =>
          exfalso
          cases hs2 : splitMax a b rs with
          | none => simp [splitMax, hs2] at hs
          | some v =>
            obtain ⟨pre2, q, post2⟩ := v
            simp only [splitMax, hs2] at hs
            split at hs <;> simp at hs
      subst hps
      simp only [splitMax, hs, Option.some.injEq, Prod.mk.injEq] at h
      obtain ⟨h1, h2, h3⟩ := h
      subst h1; subst h2; subst h3; rfl
    | some val =>
      obtain ⟨pre2, q, post2⟩ := val
      simp only [splitMax, hs] at h
      by_cases hd : pdistSq p a b < pdistSq q a b
      · rw [if_pos hd] at h
        simp only [Option.some.injEq, Prod.mk.injEq] at h
        obtain ⟨h1, h2, h3⟩ := h
        subst h1; subst h2; subst h3
        have := ih pre2 post2 q hs
        simp [this]
      · rw [if_neg hd] at h
        simp only [Option.some.injEq, Prod.mk.injEq] at h
        obtain ⟨h1, h2, h3⟩ := h
        subst h1; subst h2; subst h3
        rfl

theorem splitMax_eq_none (a b : Pt) (l : List Pt) (h : splitMax a b l = none) :
    l = [] := by
  cases l with
  | nil => rfl
  | cons p ps =>
    exfalso
    cases hs : splitMax a b ps with
    | none => simp [splitMax, hs] at h
    | some v =>
      obtain ⟨pre2, q, post2⟩ := v
      simp only [splitMax, hs] at h
      split at h <;> simp at h

theorem splitMax_pre_lt (a b : Pt) (l pre post : List Pt) (x : Pt)
    (h : splitMax a b l = some (pre, x, post)) :
    ∀ p ∈ pre, pdistSq p a b < pdistSq x a b := by
  induction l generalizing pre x post with
  | nil => simp [splitMax] at h
  | cons p ps ih =>
    cases hs : splitMax a b ps with
    | none =>
      simp only [splitMax, hs, Option.some.injEq, Prod.mk.injEq] at h
      obtain ⟨h1, h2, h3⟩ := h
      subst h1; simp
    | some val =>
      obtain ⟨pre2, q, post2⟩ := val
      simp only [splitMax, hs] at h
      by_cases hd : pdistSq p a b < pdistSq q a b
      · rw [if_pos hd] at h
        simp only [Option.some.injEq, Prod.mk.injEq] at h
        obtain ⟨h1, h2, h3⟩ := h
        subst h1; subst h2
        intro r hr
        rcases List.mem_cons.mp hr with rfl | hr2
        · exact hd
        · exact ih pre2 post2 q hs r hr2
      · rw [if_neg hd] at h
        simp only [Option.some.injEq, Prod.mk.injEq] at h
        obtain ⟨h1, h2, h3⟩ := h
        subst h1; simp

theorem splitMax_post_le (a b : Pt) (l pre post : List Pt) (x : Pt)
    (h : splitMax a b l = some (pre, x, post)) :
    ∀ p ∈ post, pdistSq p a b ≤ pdistSq x a b := by
  induction l generalizing pre x post with
  | nil => simp [splitMax] at h
  | cons p ps ih =>
    cases hs : splitMax a b ps with
    | none =>
      simp only [splitMax, hs, Option.some.injEq, Prod.mk.injEq] at h
      obtain ⟨h1, h2, h3⟩ := h
      subst h3; simp
    | some val =>
      obtain ⟨pre2, q, post2⟩ := val
      simp only [splitMax, hs] at h
      by_cases hd : pdistSq p a b < pdistSq q a b
      · rw [if_pos hd] at h
        simp only [Option.some.injEq, Prod.mk.injEq] at h
        obtain ⟨h1, h2, h3⟩ := h
        subst h2; subst h3
        exact fun r hr => ih pre2 post2 q hs r hr
      · rw [if_neg hd] at h
        simp only [Option.some.injEq, Prod.mk.injEq] at h
        obtain ⟨h1, h2, h3⟩ := h
        subst h2; subst h3
        have hps := splitMax_append a b ps pre2 post2 q hs
        have hq : pdistSq q a b ≤ pdistSq p a b := le_of_not_lt hd
        intro r hr
        rw [hps] at hr
        rcases List.mem_append.mp hr with hr1 | hr2
        · exact le_of_lt (lt_of_lt_of_le (splitMax_pre_lt a b ps pre2 post2 q hs r hr1) hq)
        · rcases List.mem_cons.mp hr2 with rfl | hr3
          · exact hq
          · exact le_trans (ih pre2 post2 q hs r hr3) hq

theorem splitMax_complete (a b : Pt) (pre post : List Pt) (x : Pt)
    (hpre : ∀ p ∈ pre, pdistSq p a b < pdistSq x a b)
    (hpost : ∀ p ∈ post, pdistSq p a b ≤ pdistSq x a b) :
    splitMax a b (pre ++ x :: post) = some (pre, x, post) := by
  induction pre with
  | nil =>
    simp only [List.nil_append]
    cases hs : splitMax a b post with
    | none =>
      have hp := splitMax_eq_none a b post hs
      subst hp
      simp [splitMax]
    | some val =>
      obtain ⟨pre2, q, post2⟩ := val
      have hq : q ∈ post := by
        rw [splitMax_append a b post pre2 post2 q hs]; simp
      have hnlt : ¬ pdistSq x a b < pdistSq q a b := not_lt.mpr (hpost q hq)
      simp [splitMax, hs, hnlt]
  | cons p pre0 ih =>
    have hlt := hpre p (by simp)
    have ihh := ih (fun r hr => hpre r (by simp [hr]))
    simp only [List.cons_append]
    simp [splitMax, ihh, hlt]

theorem rdpAuxF_shape (eSq : ℚ) :
    ∀ (fuel : Nat) (mid : List Pt) (a b : Pt), mid.length ≤ fuel →
      ∃ mid2, mid2.Sublist mid ∧ rdpAuxF eSq fuel a mid b = a :: (mid2 ++ [b]) := by
  intro fuel
  induction fuel with
  | zero =>
    intro mid a b hlen
    have hm : mid = [] := List.eq_nil_of_length_eq_zero (Nat.le_zero.mp hlen)
    subst hm
    exact ⟨[], List.nil_sublist _, rfl⟩
  | succ fuel ih =>
    intro mid a b hlen
    cases hs : splitMax a b mid with
    | none =>
      refine ⟨[], List.nil_sublist _, ?_⟩
      simp [rdpAuxF, rdpStep, hs]
    | some val =>
      obtain ⟨pre, x, post⟩ := val
      have hm := splitMax_append a b mid pre post x hs
      have hpre : pre.length ≤ fuel := by
        rw [hm] at hlen; simp [List.length_append] at hlen; omega
      have hpost : post.length ≤ fuel := by
        rw [hm] at hlen; simp [List.length_append] at hlen; omega
      by_cases hg : eSq < pdistSq x a b
      · obtain ⟨pre2, hpre2, e1⟩ := ih pre a x hpre
        obtain ⟨post2, hpost2, e2⟩ := ih post x b hpost
        refine ⟨pre2 ++ x :: post2, ?_, ?_⟩
        · rw [hm]
          exact List.Sublist.append hpre2 (List.Sublist.cons₂ x hpost2)
        · simp only [rdpAuxF, rdpStep, hs, if_pos hg, e1, e2]
          simp
      · refine ⟨[], List.nil_sublist _, ?_⟩
        simp [rdpAuxF, rdpStep, hs, if_neg hg]

theorem rdpAuxF_step (eSq : ℚ) :
    ∀ (fuel : Nat) (mid : List Pt) (a b : Pt), mid.length ≤ fuel →
      rdpAuxF eSq (fuel + 1) a mid b = rdpAuxF eSq fuel a mid b := by
  intro fuel
  induction fuel with
  | zero =>
    intro mid a b hlen
    have hm : mid = [] := List.eq_nil_of_length_eq_zero (Nat.le_zero.mp hlen)
    subst hm
    simp [rdpAuxF, rdpStep, splitMax]
  | succ fuel ih =>
    intro mid a b hlen
    cases hs : splitMax a b mid with
    | none => simp [rdpAuxF, rdpStep, hs]
    | some val =>
      obtain ⟨pre, x, post⟩ := val
      have hm := splitMax_append a b mid pre post x hs
      have hpre : pre.length ≤ fuel := by
        rw [hm] at hlen; simp [List.length_append] at hlen; omega
      have hpost : post.length ≤ fuel := by
        rw [hm] at hlen; simp [List.length_append] at hlen; omega
      by_cases hg : eSq < pdistSq x a b
      · show rdpStep eSq (rdpAuxF eSq (fuel + 1)) a mid b =
          rdpStep eSq (rdpAuxF eSq fuel) a mid b
        simp only [rdpStep, hs, if_pos hg]
        rw [ih pre a x hpre, ih post x b hpost]
      · show rdpStep eSq (rdpAuxF eSq (fuel + 1)) a mid b =
          rdpStep eSq (rdpAuxF eSq fuel) a mid b
        simp only [rdpStep, hs, if_neg hg]

theorem rdpAuxF_fuel (eSq : ℚ) :
    ∀ (f : Nat) (mid : List Pt) (a b : Pt), mid.length ≤ f →
      rdpAuxF eSq f a mid b = rdpAux eSq a mid b := by
  intro f
  induction f with
  | zero =>
    intro mid a b hlen
    have hm : mid = [] := List.eq_nil_of_length_eq_zero (Nat.le_zero.mp hlen)
    subst hm; rfl
  | succ f ih =>
    intro mid a b hlen
    rcases Nat.lt_or_ge f mid.length with hf | hf
    · have hL : mid.length = f + 1 := le_antisymm hlen hf
      rw [rdpAux, hL]
    · calc rdpAuxF eSq (f + 1) a mid b = rdpAuxF eSq f a mid b :=
            rdpAuxF_step eSq f mid a b hf
        _ = rdpAux eSq a mid b := ih mid a b hf

theorem mid2_nil_of_pair (a b : Pt) (mid2 : List Pt)
    (h : [a, b] = a :: (mid2 ++ [b])) : mid2 = [] := by
  cases mid2 with
  | nil => rfl
  | cons c cs =>
    exfalso
    have hL := congrArg List.length h
    simp only [List.length_cons, List.length_append, List.length_nil] at hL
    omega

theorem rdpAuxF_idem (eSq : ℚ) :
    ∀ (fuel : Nat) (mid : List Pt) (a b : Pt) (mid2 : List Pt), mid.length ≤ fuel →
      rdpAuxF eSq fuel a mid b = a :: (mid2 ++ [b]) →
      rdpAux eSq a mid2 b = a :: (mid2 ++ [b]) := by
  intro fuel
  induction fuel with
  | zero =>
    intro mid a b mid2 hlen heq
    have hm : mid = [] := List.eq_nil_of_length_eq_zero (Nat.le_zero.mp hlen)
    subst hm
    have h2 : mid2 = [] := mid2_nil_of_pair a b mid2 heq
    subst h2; rfl
  | succ fuel ih =>
    intro mid a b mid2 hlen heq
    cases hs : splitMax a b mid with
    | none =>
      simp only [rdpAuxF, rdpStep, hs] at heq
      have h2 : mid2 = [] := mid2_nil_of_pair a b mid2 heq
      subst h2; rfl
    | some val =>
      obtain ⟨pre, x, post⟩ := val
      have hm := splitMax_append a b mid pre post x hs
      have hpre : pre.length ≤ fuel := by
        rw [hm] at hlen; simp [List.length_append] at hlen; omega
      have hpost : post.length ≤ fuel := by
        rw [hm] at hlen; simp [List.length_append] at hlen; omega
      by_cases hg : eSq < pdistSq x a b
      · simp only [rdpAuxF, rdpStep, hs, if_pos hg] at heq
        obtain ⟨pre2, hpre2, e1⟩ := rdpAuxF_shape eSq fuel pre a x hpre
        obtain ⟨post2, hpost2, e2⟩ := rdpAuxF_shape eSq fuel post x b hpost
        rw [e1, e2] at heq
        have hmid2 : mid2 = pre2 ++ x :: post2 := by
          have h1 : (pre2 ++ x :: post2) ++ [b] = mid2 ++ [b] := by
            have h0 := (List.cons.injEq _ _ _ _).mp heq
            simpa [List.append_assoc] using h0.2
          exact (List.append_cancel_right h1).symm
        subst hmid2
        have hsm : splitMax a b (pre2 ++ x :: post2) = some (pre2, x, post2) :=
          splitMax_complete a b pre2 post2 x
            (fun r hr => splitMax_pre_lt a b mid pre post x hs r (hpre2.subset hr))
            (fun r hr => splitMax_post_le a b mid pre post x hs r (hpost2.subset hr))
        have hL : (pre2 ++ x :: post2).length = (pre2.length + post2.length) + 1 := by
          simp only [List.length_append, List.length_cons]
          omega
        show rdpAuxF eSq (pre2 ++ x :: post2).length a (pre2 ++ x :: post2) b = _
        rw [hL]
        show rdpStep eSq (rdpAuxF eSq (pre2.length + post2.length)) a (pre2 ++ x :: post2) b = _
        simp only [rdpStep, hsm, if_pos hg]
        have r1 : rdpAuxF eSq (pre2.length + post2.length) a pre2 x = a :: (pre2 ++ [x]) := by
          rw [rdpAuxF_fuel eSq _ pre2 a x (by omega)]
          exact ih pre a x pre2 hpre e1
        have r2 : rdpAuxF eSq (pre2.length + post2.length) x post2 b = x :: (post2 ++ [b]) := by
          rw [rdpAuxF_fuel eSq _ post2 x b (by omega)]
          exact ih post x b post2 hpost e2
        rw [r1, r2]
        simp
      · simp only [rdpAuxF, rdpStep, hs, if_neg hg] at heq
        have h2 : mid2 = [] := mid2_nil_of_pair a b mid2 heq
        subst h2; rfl

theorem dropLast_append_getLastD (l : List Pt) :
    ∀ d : Pt, l ≠ [] → l.dropLast ++ [l.getLastD d] = l := by
  induction l with
  | nil => intro d h; exact absurd rfl h
  | cons x t ih =>
    intro d _
    cases t with
    | nil => simp
    | cons y s =>
      rw [List.dropLast_cons₂, List.getLastD_cons, List.cons_append]
      rw [ih x (by simp)]

/-- C7: for every point sequence `P` with at least two points and a
nonnegative (squared) tolerance, the Douglas-Peucker simplification returns
a subsequence of `P` (relative order preserved) that keeps the first and
last points, with length at most `|P|` and at least 2. -/
theorem c7_rdp_contract (eSq : ℚ) (P : List Pt) (heps : 0 ≤ eSq) (hlen : 2 ≤ P.length) :
    (rdp eSq P).Sublist P ∧ (rdp eSq P).head? = P.head? ∧
      (rdp eSq P).getLast? = P.getLast? ∧ 2 ≤ (rdp eSq P).length ∧
      (rdp eSq P).length ≤ P.length := by
  match P, hlen with
  | a :: q :: rest, _ =>
    obtain ⟨mid2, hsub, he⟩ :=
      rdpAuxF_shape eSq ((q :: rest).dropLast).length ((q :: rest).dropLast) a
        ((q :: rest).getLastD q) le_rfl
    have hrdp : rdp eSq (a :: q :: rest) =
        a :: (mid2 ++ [(q :: rest).getLastD q]) := he
    have hP : a :: q :: rest =
        a :: ((q :: rest).dropLast ++ [(q :: rest).getLastD q]) := by
      rw [dropLast_append_getLastD (q :: rest) q (by simp)]
    refine ⟨?_, ?_, ?_, ?_, ?_⟩
    · rw [hrdp]
      conv_rhs => rw [hP]
      exact List.Sublist.cons₂ a (hsub.append (List.Sublist.refl [_]))
    · rw [hrdp]; rfl
    · rw [hrdp]
      conv_rhs => rw [hP]
      rw [show a :: (mid2 ++ [(q :: rest).getLastD q]) =
            (a :: mid2) ++ [(q :: rest).getLastD q] by simp]
      rw [show a :: ((q :: rest).dropLast ++ [(q :: rest).getLastD q]) =
            (a :: (q :: rest).dropLast) ++ [(q :: rest).getLastD q] by simp]
      rw [List.getLast?_concat, List.getLast?_concat]
    · rw [hrdp]; simp
    · rw [hrdp]
      have h1 := hsub.length_le
      have h2 : (q :: rest).dropLast.length = rest.length := by simp
      simp only [List.length_cons, List.length_append, List.length_nil]
      omega

/-- C7 witness at a concrete input: three collinear points with tolerance
zero reduce to the two endpoints, satisfying every clause. -/
theorem c7_rdp_contract_witness :
    (rdp 0 [((0 : ℚ), (0 : ℚ)), (1, 0), (2, 0)]).Sublist
        [((0 : ℚ), (0 : ℚ)), (1, 0), (2, 0)] ∧
      (rdp 0 [((0 : ℚ), (0 : ℚ)), (1, 0), (2, 0)]).head? =
        ([((0 : ℚ), (0 : ℚ)), (1, 0), (2, 0)] : List Pt).head? ∧
      (rdp 0 [((0 : ℚ), (0 : ℚ)), (1, 0), (2, 0)]).getLast? =
        ([((0 : ℚ), (0 : ℚ)), (1, 0), (2, 0)] : List Pt).getLast? ∧
      2 ≤ (rdp 0 [((0 : ℚ), (0 : ℚ)), (1, 0), (2, 0)]).length ∧
      (rdp 0 [((0 : ℚ), (0 : ℚ)), (1, 0), (2, 0)]).length ≤
        ([((0 : ℚ), (0 : ℚ)), (1, 0), (2, 0)] : List Pt).length :=
  c7_rdp_contract 0 [((0 : ℚ), (0 : ℚ)), (1, 0), (2, 0)] le_rfl (by decide)

/-- C8: Douglas-Peucker curve simplification is idempotent — simplifying an
already simplified sequence with the same tolerance returns it unchanged. -/
theorem c8_rdp_idempotent : ∀ (eSq : ℚ) (P : List Pt),
    rdp eSq (rdp eSq P) = rdp eSq P := by
  intro eSq P
  match P with
  | [] => rfl
  | [p] => rfl
  | a :: q :: rest =>
    obtain ⟨mid2, hsub, he⟩ :=
      rdpAuxF_shape eSq ((q :: rest).dropLast).length ((q :: rest).dropLast) a
        ((q :: rest).getLastD q) le_rfl
    have hrdp : rdp eSq (a :: q :: rest) =
        a :: (mid2 ++ [(q :: rest).getLastD q]) := he
    rw [hrdp]
    cases mid2 with
    | nil => rfl
    | cons c cs =>
      have h1 : a :: ((c :: cs) ++ [(q :: rest).getLastD q]) =
          a :: c :: (cs ++ [(q :: rest).getLastD q]) := by simp
      rw [h1]
      have h2 : (c :: (cs ++ [(q :: rest).getLastD q])).dropLast = c :: cs := by
        rw [show c :: (cs ++ [(q :: rest).getLastD q]) =
              (c :: cs) ++ [(q :: rest).getLastD q] by simp]
        exact List.dropLast_concat
      have h3 : (c :: (cs ++ [(q :: rest).getLastD q])).getLastD c =
          (q :: rest).getLastD q := by
        rw [show c :: (cs ++ [(q :: rest).getLastD q]) =
              (c :: cs) ++ [(q :: rest).getLastD q] by simp]
        exact List.getLastD_concat _ _ _
      show rdpAux eSq a ((c :: (cs ++ [(q :: rest).getLastD q])).dropLast)
          ((c :: (cs ++ [(q :: rest).getLastD q])).getLastD c) = _
      rw [h2, h3]
      have := rdpAuxF_idem eSq ((q :: rest).dropLast).length ((q :: rest).dropLast)
        a ((q :: rest).getLastD q) (c :: cs) le_rfl he
      rw [this]
      simp

theorem digitChar_isDigit (k : Nat) (h : k < 10) : (digitChar k).isDigit = true := by
  interval_cases k <;> decide

theorem natDigitsAux_digits : ∀ (fuel n : Nat), ∀ c ∈ natDigitsAux fuel n, c.isDigit = true := by
  intro fuel
  induction fuel with
  | zero => intro n c hc; simp [natDigitsAux] at hc
  | succ fuel ih =>
    intro n c hc
    cases n with
    | zero => simp [natDigitsAux] at hc
    | succ m =>
      simp only [natDigitsAux, List.mem_cons] at hc
      rcases hc with rfl | hc
      · exact digitChar_isDigit _ (Nat.mod_lt _ (by norm_num))
      · exact ih _ c hc

theorem natStr_digits (n : Nat) : ∀ c ∈ (natStr n).data, c.isDigit = true := by
  unfold natStr
  split
  · intro c hc
    have h0 : ("0" : String).data = ['0'] := rfl
    rw [h0] at hc
    simp at hc
    subst hc; decide
  · intro c hc
    have hd : (String.mk (natDigitsAux n n).reverse).data = (natDigitsAux n n).reverse := rfl
    rw [hd] at hc
    exact natDigitsAux_digits n n c (List.mem_reverse.mp hc)

theorem natDigitsAux_length_le : ∀ (fuel n k : Nat), n < 10 ^ k →
    (natDigitsAux fuel n).length ≤ k := by
  intro fuel
  induction fuel with
  | zero => intro n k _; simp [natDigitsAux]
  | succ fuel ih =>
    intro n k hn
    cases n with
    | zero => simp [natDigitsAux]
    | succ m =>
      cases k with
      | zero => simp at hn
      | succ k =>
        simp only [natDigitsAux, List.length_cons]
        have hdiv : (m + 1) / 10 < 10 ^ k := by
          rw [Nat.div_lt_iff_lt_mul (by norm_num)]
          calc m + 1 < 10 ^ (k + 1) := hn
            _ = 10 ^ k * 10 := by rw [pow_succ]
        exact Nat.succ_le_succ (ih _ k hdiv)

theorem natStr_length_le (n k : Nat) (hk : 1 ≤ k) (h : n < 10 ^ k) :
    (natStr n).length ≤ k := by
  unfold natStr
  split
  · simpa using hk
  · have hlen : (String.mk (natDigitsAux n n).reverse).length =
        (natDigitsAux n n).length := by
      simp [String.length]
    rw [hlen]
    exact natDigitsAux_length_le n n k h

theorem hexDigitChar_isHex (k : Nat) (h : k < 16) :
    isUpperHexDigit (hexDigitChar k) = true := by
  interval_cases k <;> decide

theorem hexDigitsAux_hex : ∀ (fuel n : Nat), ∀ c ∈ hexDigitsAux fuel n,
    isUpperHexDigit c = true := by
  intro fuel
  induction fuel with
  | zero => intro n c hc; simp [hexDigitsAux] at hc
  | succ fuel ih =>
    intro n c hc
    cases n with
    | zero => simp [hexDigitsAux] at hc
    | succ m =>
      simp only [hexDigitsAux, List.mem_cons] at hc
      rcases hc with rfl | hc
      · exact hexDigitChar_isHex _ (Nat.mod_lt _ (by norm_num))
      · exact ih _ c hc

theorem hexDigitsAux_length_le : ∀ (fuel n k : Nat), n < 16 ^ k →
    (hexDigitsAux fuel n).length ≤ k := by
  intro fuel
  induction fuel with
  | zero => intro n k _; simp [hexDigitsAux]
  | succ fuel ih =>
    intro n k hn
    cases n with
    | zero => simp [hexDigitsAux]
    | succ m =>
      cases k with
      | zero => simp at hn
      | succ k =>
        simp only [hexDigitsAux, List.length_cons]
        have hdiv : (m + 1) / 16 < 16 ^ k := by
          rw [Nat.div_lt_iff_lt_mul (by norm_num)]
          calc m + 1 < 16 ^ (k + 1) := hn
            _ = 16 ^ k * 16 := by rw [pow_succ]
        exact Nat.succ_le_succ (ih _ k hdiv)

theorem padLeftZero_length (w : Nat) (s : String) (h : s.length ≤ w) :
    (padLeftZero w s).length = w := by
  unfold padLeftZero
  rw [String.length_append]
  have hmk : (String.mk (List.replicate (w - s.length) '0')).length =
      w - s.length := by
    show (List.replicate (w - s.length) '0').length = w - s.length
    simp
  rw [hmk]
  omega

theorem pad2hex_length (n : Nat) (h : n < 256) : (pad2hex n).length = 2 := by
  unfold pad2hex
  apply padLeftZero_length
  split
  · decide
  · have hlen : (String.mk (hexDigitsAux n n).reverse).length =
        (hexDigitsAux n n).length := by simp [String.length]
    rw [hlen]
    exact hexDigitsAux_length_le n n 2 (by omega)

theorem pad2hex_hex (n : Nat) : ∀ c ∈ (pad2hex n).data, isUpperHexDigit c = true := by
  intro c hc
  unfold pad2hex padLeftZero at hc
  rw [show ∀ a b : String, (a ++ b).data = a.data ++ b.data from fun a b => rfl] at hc
  rcases List.mem_append.mp hc with hc1 | hc2
  · have : c = '0' := List.eq_of_mem_replicate hc1
    subst this; decide
  · revert hc2
    split
    · intro hc2
      have h0 : ("0" : String).data = ['0'] := rfl
      rw [h0] at hc2
      simp at hc2
      subst hc2; decide
    · intro hc2
      exact hexDigitsAux_hex n n c (List.mem_reverse.mp hc2)

theorem pyInt_alpha : pyInt ((9 / 10 : ℚ) * 255) = 229 := by
  unfold pyInt
  rw [if_neg (by norm_num)]
  rw [Int.floor_eq_iff]
  constructor <;> norm_num

/-- C3 counterexample: the claim predicts the alpha channel
`round(0.9*255) = 230 = "E6"`, but `kml_hex_color` computes
`int(0.9*255) = 229 = "E5"` (truncation), so the packed color of the `Hike`
style (RGB (255,0,0), opacity 0.9) is `"E50000FF"`, not the claimed
`"E6" ++ "0000FF"`. -/
theorem c3_alpha_round_counterexample :
    kml_hex_color (255, 0, 0, 9 / 10) = "E50000FF" ∧
      pad2hex (round ((9 / 10 : ℚ) * 255)).toNat = "E6" ∧
      kml_hex_color (255, 0, 0, 9 / 10) ≠
        pad2hex (round ((9 / 10 : ℚ) * 255)).toNat ++ pad2hex 0 ++
          pad2hex 0 ++ pad2hex 255 := by
  have hrd : round ((9 / 10 : ℚ) * 255) = 230 := by
    rw [round_eq, Int.floor_eq_iff]
    constructor <;> norm_num
  have h1 : kml_hex_color (255, 0, 0, 9 / 10) = "E50000FF" := by
    show pad2hex (pyInt ((9 / 10 : ℚ) * 255)).toNat ++ pad2hex 0 ++
        pad2hex 0 ++ pad2hex 255 = "E50000FF"
    rw [pyInt_alpha]
    decide
  refine ⟨h1, ?_, ?_⟩
  · rw [hrd]; decide
  · rw [h1, hrd]; decide

/-- C3 (amended): the packed color encoding is channel-reversed with alpha
first (alpha, blue, green, red), each channel two uppercase-hexadecimal
digits for byte values, and for opacity 0.9 the alpha channel equals
`int(0.9*255) = 229` (truncation toward zero, hex `"E5"`), NOT
`round(0.9*255)`; the same `"E5"` prefix appears in the packed color of
every style, all of which use that alpha. -/
theorem c3_alpha_truncation (r g b : Nat) (hr : r < 256) (hg : g < 256) (hb : b < 256) :
    kml_hex_color (r, g, b, 9 / 10) = "E5" ++ pad2hex b ++ pad2hex g ++ pad2hex r ∧
      (pad2hex r).length = 2 ∧ (pad2hex g).length = 2 ∧ (pad2hex b).length = 2 ∧
      (∀ c ∈ (pad2hex r).data, isUpperHexDigit c = true) ∧
      (∀ st ∈ styles, (kml_hex_color st.2).data.take 2 = ['E', '5']) := by
  have key : ∀ rr gg bb : Nat,
      (kml_hex_color (rr, gg, bb, alphaConst)).data.take 2 = ['E', '5'] := by
    intro rr gg bb
    show ((pad2hex (pyInt (alphaConst * 255)).toNat ++ pad2hex bb ++
        pad2hex gg ++ pad2hex rr)).data.take 2 = ['E', '5']
    rw [show alphaConst = (9 / 10 : ℚ) from rfl, pyInt_alpha]
    rw [show ((229 : ℤ)).toNat = 229 from rfl]
    rw [show pad2hex 229 = "E5" by decide]
    rw [show ∀ a b : String, (a ++ b).data = a.data ++ b.data from fun a b => rfl]
    rw [show ∀ a b : String, (a ++ b).data = a.data ++ b.data from fun a b => rfl]
    rw [show ∀ a b : String, (a ++ b).data = a.data ++ b.data from fun a b => rfl]
    rw [List.append_assoc, List.append_assoc]
    rw [List.take_append_of_le_length (by decide)]
    decide
  refine ⟨?_, pad2hex_length r hr, pad2hex_length g hg, pad2hex_length b hb,
      pad2hex_hex r, ?_⟩
  · show pad2hex (pyInt ((9 / 10 : ℚ) * 255)).toNat ++ pad2hex b ++
        pad2hex g ++ pad2hex r = "E5" ++ pad2hex b ++ pad2hex g ++ pad2hex r
    rw [pyInt_alpha]
    rw [show ((229 : ℤ)).toNat = 229 from rfl]
    rw [show pad2hex 229 = "E5" by decide]
  · intro st hst
    fin_cases hst <;> exact key _ _ _

/-- C3 witness: the amended statement applied to RGB (255, 0, 0). -/
theorem c3_alpha_truncation_witness :
    kml_hex_color (255, 0, 0, 9 / 10) =
      "E5" ++ pad2hex 0 ++ pad2hex 0 ++ pad2hex 255 :=
  (c3_alpha_truncation 255 0 0 (by decide) (by decide) (by decide)).1

/-- C5: for an outing with no tracks the geometry body is exactly the point
templates over the input points in input order, each coordinate rendered as
the 5-decimal longitude, a comma, then the 5-decimal latitude; `format5`
always yields exactly five digits after the (only) decimal point; and every
successfully generated LineString joins its (simplified) track points with
single spaces in point order, longitude before latitude. -/
theorem c5_coordinate_formatting :
    (∀ (env : Env) (o : Outing), o.tracks.getD [] = [] →
      geomCore env o = .ok (String.intercalate "\n" ((o.points.getD []).map fun p =>
        template_point (format5 p.2 ++ "," ++ format5 p.1)))) ∧
    (∀ q : ℚ, ∃ (a : String) (ds : List Char),
        format5 q = a ++ "." ++ String.mk ds ∧ ds.length = 5 ∧
          (∀ c ∈ ds, c.isDigit = true) ∧ ∀ c ∈ a.data, c ≠ '.') ∧
    (∀ (env : Env) (t body : String), generate_linestring env t = .ok body →
      ∃ (g : Gpx) (seg : List Pt), env.gpx (gpx_data_dir ++ t) = some g ∧
        g.tracks = [[seg]] ∧
        body = template_linestring (String.intercalate " "
          ((optimize_segment_rdp seg).map fun p => format5 p.2 ++ "," ++ format5 p.1))) := by
  refine ⟨?_, ?_, ?_⟩
  · intro env o htr
    unfold geomCore
    rw [htr]
    show Except.ok (String.intercalate "\n" ((o.points.getD []).map generate_point) ++
        String.intercalate "\n" []) = _
    rw [show String.intercalate "\n" ([] : List String) = "" from rfl]
    rw [String.append_empty]
    rfl
  · intro q
    refine ⟨(if roundHalfEven (q * 100000) < 0 ∨
          (roundHalfEven (q * 100000) = 0 ∧ q < 0) then "-" else "") ++
        natStr ((roundHalfEven (q * 100000)).natAbs / 100000),
      (padLeftZero 5 (natStr ((roundHalfEven (q * 100000)).natAbs % 100000))).data,
      ?_, ?_, ?_, ?_⟩
    · show (if roundHalfEven (q * 100000) < 0 ∨
            (roundHalfEven (q * 100000) = 0 ∧ q < 0) then "-" else "") ++
          natStr ((roundHalfEven (q * 100000)).natAbs / 100000) ++ "." ++
          padLeftZero 5 (natStr ((roundHalfEven (q * 100000)).natAbs % 100000)) = _
      rfl
    · show (padLeftZero 5 (natStr ((roundHalfEven (q * 100000)).natAbs % 100000))).length = 5
      apply padLeftZero_length
      exact natStr_length_le _ 5 (by norm_num) (by
        have : (roundHalfEven (q * 100000)).natAbs % 100000 < 100000 :=
          Nat.mod_lt _ (by norm_num)
        omega)
    · intro c hc
      unfold padLeftZero at hc
      rw [show ∀ a b : String, (a ++ b).data = a.data ++ b.data from fun a b => rfl] at hc
      rcases List.mem_append.mp hc with hc1 | hc2
      · have hc0 : c = '0' := List.eq_of_mem_replicate hc1
        subst hc0; decide
      · exact natStr_digits _ c hc2
    · intro c hc
      rw [show ∀ a b : String, (a ++ b).data = a.data ++ b.data from fun a b => rfl] at hc
      rcases List.mem_append.mp hc with hc1 | hc2
      · revert hc1
        split
        · intro hc1
          rw [show ("-" : String).data = ['-'] from rfl] at hc1
          simp at hc1
          subst hc1; decide
        · intro hc1
          rw [show ("" : String).data = [] from rfl] at hc1
          simp at hc1
      · have hd := natStr_digits _ c hc2
        intro heq
        subst heq
        simp at hd
  · intro env t body h
    unfold generate_linestring at h
    split at h
    · simp at h
    · rename_i g hgpx
      split at h
      · rename_i hw hr
        split at h
        · rename_i seg heq2
          exact ⟨g, seg, hgpx, heq2, (Except.ok.inj h).symm⟩
        · simp at h
      · simp at h

theorem geomCore_ok (env : Env) (o : Outing) (core : String)
    (h : geomCore env o = .ok core) :
    ∃ ls, (o.tracks.getD []).mapM (generate_linestring env) = .ok ls ∧
      core = String.intercalate "\n" ((o.points.getD []).map generate_point) ++
        String.intercalate "\n" ls := by
  unfold geomCore at h
  cases hm : (o.tracks.getD []).mapM (generate_linestring env) with
  | error e => rw [hm] at h; simp at h
  | ok ls =>
    rw [hm] at h
    exact ⟨ls, rfl, (Except.ok.inj h).symm⟩

/-- C4: geometry composition — with exactly one geometry source the single
Point or LineString is emitted directly (indented once, no wrapper); with
more than one source all geometries are wrapped in one MultiGeometry, points
first and then tracks, each group in array order; and the concrete
two-points-no-tracks outing yields the MultiGeometry of its two Points. -/
theorem c4_geometry_composition :
    (∀ (env : Env) (o : Outing) (g : String), genGeometry env o = .ok g →
      (numPoints o + numTracks o = 1 →
        (∀ p, o.points.getD [] = [p] → g = indentStr (generate_point p) 1) ∧
        (∀ t, o.tracks.getD [] = [t] →
          ∃ ls, generate_linestring env t = .ok ls ∧ g = indentStr ls 1)) ∧
      (1 < numPoints o + numTracks o →
        ∃ ls, (o.tracks.getD []).mapM (generate_linestring env) = .ok ls ∧
          g = indentStr (template_multigeometry (indentStr
            (String.intercalate "\n" ((o.points.getD []).map generate_point) ++
             String.intercalate "\n" ls) 1)) 1)) ∧
    genGeometry env0 outingTwoPoints = .ok twoPointGeom := by
  constructor
  · intro env o g h
    unfold genGeometry at h
    cases hc : geomCore env o with
    | error e => rw [hc] at h; simp at h
    | ok core =>
      rw [hc] at h
      replace h : (if 1 < numPoints o + numTracks o then
          Except.ok (indentStr (template_multigeometry (indentStr core 1)) 1)
        else (Except.ok (indentStr core 1) : Except Err String)) = Except.ok g := h
      obtain ⟨ls, hls, hcore⟩ := geomCore_ok env o core hc
      constructor
      · intro hsum
        rw [if_neg (by omega)] at h
        have hg : g = indentStr core 1 := (Except.ok.inj h).symm
        constructor
        · intro p hp
          have hnp : numPoints o = 1 := by simp [numPoints, hp]
          have hnt : (o.tracks.getD []) = [] := by
            have : numTracks o = 0 := by omega
            exact List.eq_nil_of_length_eq_zero this
          rw [hnt] at hls
          have hls0 : ls = [] := by
            rw [List.mapM_nil] at hls
            simp [pure, Except.pure] at hls
            exact hls
          rw [hg, hcore, hls0, hp]
          rw [show String.intercalate "\n" ([] : List String) = "" from rfl]
          rw [String.append_empty]
          rfl
        · intro t ht
          have hnt : numTracks o = 1 := by simp [numTracks, ht]
          have hnp : (o.points.getD []) = [] := by
            have : numPoints o = 0 := by omega
            exact List.eq_nil_of_length_eq_zero this
          rw [ht] at hls
          cases hl1 : generate_linestring env t with
          | error e =>
            exfalso
            rw [List.mapM_cons, hl1] at hls
            simp [Bind.bind, Except.bind] at hls
          | ok l1 =>
            refine ⟨l1, rfl, ?_⟩
            have hls1 : ls = [l1] := by
              rw [List.mapM_cons, hl1, List.mapM_nil] at hls
              simp [Bind.bind, Except.bind, pure, Except.pure] at hls
              exact hls.symm
            rw [hg, hcore, hls1, hnp]
            rfl
      · intro hsum
        rw [if_pos hsum] at h
        exact ⟨ls, hls, by rw [(Except.ok.inj h).symm, hcore]⟩
  · rfl

/-- C4 witness: the general multi-source clause applied to the concrete
two-point outing, whose geometry is the MultiGeometry of its two Points. -/
theorem c4_geometry_composition_witness :
    ∃ ls, (outingTwoPoints.tracks.getD []).mapM (generate_linestring env0) = Except.ok ls ∧
      twoPointGeom = indentStr (template_multigeometry (indentStr
        (String.intercalate "\n" ((outingTwoPoints.points.getD []).map generate_point) ++
         String.intercalate "\n" ls) 1)) 1 :=
  ((c4_geometry_composition.1 env0 outingTwoPoints twoPointGeom rfl).2 (by decide))

/-- C5 witness: the points-only clause applied to the concrete two-point
outing. -/
theorem c5_coordinate_formatting_witness :
    geomCore env0 outingTwoPoints = .ok (String.intercalate "\n"
      ((outingTwoPoints.points.getD []).map fun p =>
        template_point (format5 p.2 ++ "," ++ format5 p.1))) :=
  c5_coordinate_formatting.1 env0 outingTwoPoints rfl

theorem checkSeq_get (d ty t : String) :
    ∀ (l : List String) (k : Nat), checkSeq d ty t k l = true →
      ∀ (i : Nat) (h : i < l.length), l.get ⟨i, h⟩ = trackFileName d ty t (k + i) := by
  intro l
  induction l with
  | nil => intro k _ i h; simp at h
  | cons f fs ih =>
    intro k hc i h
    simp only [checkSeq, Bool.and_eq_true, decide_eq_true_eq] at hc
    obtain ⟨h1, h2⟩ := hc
    cases i with
    | zero => simpa using h1
    | succ i =>
      have hi : i < fs.length := by simpa using h
      have := ih (k + 1) h2 i hi
      have hk : k + 1 + i = k + (i + 1) := by omega
      rw [hk] at this
      simpa using this

/-- C6: when an outing references more than one track file and track-name
resolution succeeds, the i-th filename (1-based) is exactly the common date,
type and raw title with index i (so every filename carries an index suffix
and the first carries index 1); the example `2023-06-15__Hike__Foo__2.gpx`
parses with index digit 2, and a track list starting with it (so with no
preceding `__1` file) is rejected with an assertion failure. -/
theorem c6_multitrack_naming :
    (∀ (first : String) (rest : List String) (d ty t : String),
      1 < (first :: rest).length →
      resolveTrackMeta first (first :: rest) = .ok (d, ty, t) →
      ∀ (i : Nat) (h : i < (first :: rest).length),
        (first :: rest).get ⟨i, h⟩ =
          d ++ "__" ++ ty ++ "__" ++ t ++ "__" ++ natStr (i + 1) ++ ".gpx") ∧
    parseTrackFile "2023-06-15__Hike__Foo__2.gpx" =
      some ("2023-06-15", "Hike", "Foo", some '2') ∧
    (∃ e, resolveTrackMeta "2023-06-15__Hike__Foo__2.gpx"
      ["2023-06-15__Hike__Foo__2.gpx", "2023-06-15__Hike__Foo__3.gpx"] =
        .error e) := by
  refine ⟨?_, by decide, ⟨Err.assertionError
    "The first multi track files must have a \"__1\" suffix: ", rfl⟩⟩
  intro first rest d ty t hlen h
  unfold resolveTrackMeta at h
  split at h
  · simp at h
  · rename_i d0 ty0 t0 idx hp
    split at h
    · simp at h
    · rename_i hcond
      split at h
      · exfalso
        apply hcond
        simp only [Option.isNone_none, Bool.and_true, decide_eq_true_eq]
        exact hlen
      · rename_i x dc
        split at h
        · rename_i hdc
          split at h
          · rename_i hcs
            obtain ⟨h1, h2, h3⟩ : d0 = d ∧ ty0 = ty ∧ t0 = t := by
              simpa using Except.ok.inj h
            subst h1; subst h2; subst h3
            intro i hi
            have hg := checkSeq_get d0 ty0 t0 (first :: rest) 0 hcs i hi
            simpa [trackFileName] using hg
          · simp at h
        · simp at h

/-- C6 witness: a correctly numbered two-part track list resolves, and its
second file is forced to be the common prefix with index 2. -/
theorem c6_multitrack_naming_witness :
    (["2023-06-15__Hike__Foo__1.gpx", "2023-06-15__Hike__Foo__2.gpx"] :
        List String).get ⟨1, by decide⟩ =
      "2023-06-15" ++ "__" ++ "Hike" ++ "__" ++ "Foo" ++ "__" ++
        natStr (1 + 1) ++ ".gpx" :=
  c6_multitrack_naming.1 "2023-06-15__Hike__Foo__1.gpx"
    ["2023-06-15__Hike__Foo__2.gpx"] "2023-06-15" "Hike" "Foo"
    (by decide) rfl 1 (by decide)

theorem buildKml_of_error (env : Env) (outings : List Outing) (e : Err) (ns : List String)
    (h : processOutings env initSt outings = (.error e, ns)) :
    buildKml env outings = (.error e, ns) := by
  unfold buildKml
  rw [h]

theorem buildKml_of_ok (env : Env) (outings : List Outing) (pms : List String)
    (st : St) (ns : List String)
    (h : processOutings env initSt outings = (.ok (pms, st), ns)) :
    buildKml env outings = (.ok (template_body (indentStr kml_styles 2)
      (indentStr (String.intercalate "\n" pms) 2)), ns) := by
  unfold buildKml
  rw [h]

theorem programRun_of_buildKml_error (env : Env) (outings : List Outing)
    (prev : String) (e : Err) (ns : List String)
    (h : buildKml env outings = (.error e, ns)) :
    (programRun env outings prev).1 = prev := by
  unfold programRun
  rw [h]
  cases e <;> rfl

theorem programRun_of_buildKml_ok (env : Env) (outings : List Outing)
    (prev : String) (k : String) (ns : List String)
    (h : buildKml env outings = (.ok k, ns)) :
    programRun env outings prev = (k, ns, none) := by
  unfold programRun
  rw [h]

theorem programRun_prev_of_not_ok (env : Env) (outings : List Outing) (prev : String)
    (h : (processOutings env initSt outings).1.isOk = false) :
    (programRun env outings prev).1 = prev := by
  cases hq : processOutings env initSt outings with
  | mk res ns =>
    cases res with
    | error e =>
      exact programRun_of_buildKml_error env outings prev e ns
        (buildKml_of_error env outings e ns hq)
    | ok v =>
      rw [hq] at h
      simp [Except.isOk, Except.toBool] at h

/-- C1: the output file is written exactly when every placemark is
generated successfully — on any failure during placemark generation the
output path keeps its previous content, the `try` body succeeds exactly
when the placemark pass succeeds, and on success the fully assembled
document is what gets written. -/
theorem c1_output_iff_success : ∀ (env : Env) (outings : List Outing) (prev : String),
    ((processOutings env initSt outings).1.isOk = false →
      (programRun env outings prev).1 = prev) ∧
    ((buildKml env outings).1.isOk = (processOutings env initSt outings).1.isOk) ∧
    (∀ (k : String) (ns : List String), buildKml env outings = (.ok k, ns) →
      programRun env outings prev = (k, ns, none)) := by
  intro env outings prev
  refine ⟨programRun_prev_of_not_ok env outings prev, ?_,
    programRun_of_buildKml_ok env outings prev⟩
  cases hq : processOutings env initSt outings with
  | mk res ns =>
    cases res with
    | error e => rw [buildKml_of_error env outings e ns hq]; rfl
    | ok v =>
      obtain ⟨pms, st⟩ := v
      rw [buildKml_of_ok env outings pms st ns hq]
      simp [Except.isOk, Except.toBool]

/-- C1 witness: a catalog whose only outing carries an empty `stravaUrl`
fails, and the previous file content survives untouched. -/
theorem c1_output_iff_success_witness :
    (programRun env0 [outingEmptyStrava] "OLD").1 = "OLD" :=
  (c1_output_iff_success env0 [outingEmptyStrava] "OLD").1 rfl

/-- C2 shows a code bug: the `except AssertionError` handler evaluates
`"ERROR: " + error_msg` where `error_msg` is the exception object, which
raises `TypeError` before anything is printed — so, contrary to the claim,
no `"ERROR: ..."` line is ever produced.  At the concrete failing input the
run ends with an uncaught `TypeError`, nothing printed, and the output file
unmodified. -/
theorem c2_handler_typeerror :
    (∀ m : String, exceptHandler m = .error Err.typeError) ∧
    programRun env0 [outingEmptyStrava] "OLD" = ("OLD", [], some Err.typeError) := by
  exact ⟨fun m => rfl, rfl⟩

theorem generate_placemark_state_indep (env : Env) (ts ds ts2 ds2 ss : List String)
    (o : Outing) :
    ((generate_placemark env ⟨ts, ds, ss⟩ o).1.map fun r => (r.1, r.2.stravaUrls)) =
      ((generate_placemark env ⟨ts2, ds2, ss⟩ o).1.map fun r => (r.1, r.2.stravaUrls)) := by
  unfold generate_placemark
  cases hm : derivedMeta o with
  | error e => rfl
  | ok meta =>
    dsimp only
    cases ht : o.title <|> meta.map (fun m => pyReplace m.2.2 "_" " ") with
    | none => rfl
    | some title =>
      dsimp only
      cases hd : o.date <|> meta.map (fun m => m.1) with
      | none => rfl
      | some dateStr =>
        dsimp only
        by_cases h0 : title.length = 0
        · simp only [if_pos h0]
        · simp only [if_neg h0]
          cases hty : o.type <|> meta.map (fun m => m.2.1) with
          | none => rfl
          | some ty =>
            dsimp only
            by_cases hsk : (!styleKeys.contains ty) = true
            · simp only [if_pos hsk]
            · simp only [if_neg hsk]
              by_cases hdf : (!isDateFmt dateStr) = true
              · simp only [if_pos hdf]
              · simp only [if_neg hdf]
                by_cases hz : numPoints o + numTracks o = 0
                · simp only [if_pos hz]
                · simp only [if_neg hz]
                  cases hmd : mkDateFormatted dateStr with
                  | error e => rfl
                  | ok dateFormatted =>
                    dsimp only
                    cases hsp : stravaPart o ss with
                    | error e => rfl
                    | ok v =>
                      dsimp only
                      cases hgg : genGeometry env o with
                      | error e => rfl
                      | ok geom => rfl

theorem processOutings_state_indep :
    ∀ (outings : List Outing) (env : Env) (ts ds ts2 ds2 ss : List String),
      (processOutings env ⟨ts, ds, ss⟩ outings).1.isOk =
        (processOutings env ⟨ts2, ds2, ss⟩ outings).1.isOk := by
  intro outings
  induction outings with
  | nil => intro env ts ds ts2 ds2 ss; rfl
  | cons o os ih =>
    intro env ts ds ts2 ds2 ss
    have key := generate_placemark_state_indep env ts ds ts2 ds2 ss o
    unfold processOutings
    cases h1 : generate_placemark env ⟨ts, ds, ss⟩ o with
    | mk r1 n1 =>
      cases h2 : generate_placemark env ⟨ts2, ds2, ss⟩ o with
      | mk r2 n2 =>
        rw [h1, h2] at key
        cases r1 with
        | error e1 =>
          cases r2 with
          | error e2 => rfl
          | ok v2 => simp [Except.map] at key
        | ok v1 =>
          cases r2 with
          | error e2 => simp [Except.map] at key
          | ok v2 =>
            obtain ⟨pm1, st1⟩ := v1
            obtain ⟨pm2, st2⟩ := v2
            simp only [Except.map, Except.ok.injEq, Prod.mk.injEq] at key
            obtain ⟨hpm, hsv⟩ := key
            dsimp only
            cases hq1 : processOutings env st1 os with
            | mk q1 m1 =>
              cases hq2 : processOutings env st2 os with
              | mk q2 m2 =>
                have hih : (processOutings env st1 os).1.isOk =
                    (processOutings env st2 os).1.isOk := by
                  have e1 : st1 = ⟨st1.titles, st1.dates, st1.stravaUrls⟩ := rfl
                  have e2 : st2 = ⟨st2.titles, st2.dates, st2.stravaUrls⟩ := rfl
                  rw [e1, e2, ← hsv]
                  exact ih env st1.titles st1.dates st2.titles st2.dates st1.stravaUrls
                rw [hq1, hq2] at hih
                cases q1 with
                | error f1 =>
                  cases q2 with
                  | error f2 => rfl
                  | ok w2 => simp [Except.isOk, Except.toBool] at hih
                | ok w1 =>
                  cases q2 with
                  | error f2 => simp [Except.isOk, Except.toBool] at hih
                  | ok w2 =>
                    obtain ⟨ps1, sf1⟩ := w1
                    obtain ⟨ps2, sf2⟩ := w2
                    rfl

theorem generate_placemark_notices (env : Env) (st : St) (o : Outing)
    (meta : Option (String × String × String)) (title dateStr : String)
    (hm : derivedMeta o = .ok meta)
    (ht : (o.title <|> meta.map fun m => pyReplace m.2.2 "_" " ") = some title)
    (hd : (o.date <|> meta.map fun m => m.1) = some dateStr) :
    (generate_placemark env st o).2 =
      (if title ∈ st.titles then [noticeTitle title] else []) ++
      (if dateStr ∈ st.dates then [noticeDate dateStr] else []) := by
  unfold generate_placemark
  cases hm2 : derivedMeta o with
  | error e => rw [hm2] at hm; simp at hm
  | ok meta2 =>
    rw [hm2] at hm
    have hmeq : meta2 = meta := Except.ok.inj hm
    subst hmeq
    dsimp only
    cases ht2 : o.title <|> meta2.map (fun m => pyReplace m.2.2 "_" " ") with
    | none => rw [ht2] at ht; simp at ht
    | some title2 =>
      rw [ht2] at ht
      have hteq : title2 = title := Option.some.inj ht
      subst hteq
      dsimp only
      cases hd2 : o.date <|> meta2.map (fun m => m.1) with
      | none => rw [hd2] at hd; simp at hd
      | some dateStr2 =>
        rw [hd2] at hd
        have hdeq : dateStr2 = dateStr := Option.some.inj hd
        subst hdeq
        dsimp only
        by_cases h0 : title2.length = 0
        · simp only [if_pos h0]
        · simp only [if_neg h0]
          cases o.type <|> meta2.map (fun m => m.2.1) with
          | none => rfl
          | some ty =>
            dsimp only
            by_cases hsk : (!styleKeys.contains ty) = true
            · simp only [if_pos hsk]
            · simp only [if_neg hsk]
              by_cases hdf : (!isDateFmt dateStr2) = true
              · simp only [if_pos hdf]
              · simp only [if_neg hdf]
                by_cases hz : numPoints o + numTracks o = 0
                · simp only [if_pos hz]
                · simp only [if_neg hz]
                  cases mkDateFormatted dateStr2 with
                  | error e => rfl
                  | ok dateFormatted =>
                    dsimp only
                    cases stravaPart o st.stravaUrls with
                    | error e => rfl
                    | ok v =>
                      dsimp only
                      cases genGeometry env o with
                      | error e => rfl
                      | ok geom => rfl

theorem mem_listInsert (u v : String) (l : List String) (h : u ∈ l) :
    u ∈ listInsert v l := by
  unfold listInsert; split <;> simp [h]

theorem self_mem_listInsert (v : String) (l : List String) : v ∈ listInsert v l := by
  unfold listInsert
  split
  · assumption
  · simp

theorem addStravaUrls_error_of_mem (u : String) :
    ∀ (urls seen : List String), u ∈ urls → u ∈ seen →
      ∃ e, addStravaUrls seen urls = .error e := by
  intro urls
  induction urls with
  | nil => intro seen hu _; simp at hu
  | cons v vs ih =>
    intro seen hu hs
    unfold addStravaUrls
    by_cases hv : v ∈ seen
    · rw [if_pos hv]; exact ⟨_, rfl⟩
    · rw [if_neg hv]
      rcases List.mem_cons.mp hu with rfl | hu2
      · exact absurd hs hv
      · exact ih (listInsert v seen) hu2 (mem_listInsert u v seen hs)

theorem addStravaUrls_error_of_dup :
    ∀ (urls seen : List String), ¬ urls.Nodup →
      ∃ e, addStravaUrls seen urls = .error e := by
  intro urls
  induction urls with
  | nil => intro seen h; simp at h
  | cons v vs ih =>
    intro seen h
    unfold addStravaUrls
    by_cases hv : v ∈ seen
    · rw [if_pos hv]; exact ⟨_, rfl⟩
    · rw [if_neg hv]
      by_cases hvv : v ∈ vs
      · exact addStravaUrls_error_of_mem v vs (listInsert v seen) hvv
          (self_mem_listInsert v seen)
      · have hnd : ¬ vs.Nodup := by
          intro hnd2
          exact h (List.nodup_cons.mpr ⟨hvv, hnd2⟩)
        exact ih (listInsert v seen) hnd

theorem stravaPart_error_cases (o : Outing) (ss urls : List String)
    (hs : o.stravaUrl = some urls)
    (hbad : urls = [] ∨ (∃ u ∈ urls, u ∈ ss) ∨ ¬ urls.Nodup) :
    ∃ e, stravaPart o ss = .error e := by
  unfold stravaPart
  cases hso : o.stravaUrl with
  | none => rw [hso] at hs; simp at hs
  | some urls2 =>
    rw [hso] at hs
    have h2 : urls2 = urls := Option.some.inj hs
    subst h2
    dsimp only
    cases urls2 with
    | nil => exact ⟨_, rfl⟩
    | cons u0 us =>
      rcases hbad with hnil | hrest
      · simp at hnil
      · have hadd : ∃ e, addStravaUrls ss (u0 :: us) = .error e := by
          rcases hrest with ⟨u, hu, hum⟩ | hnd
          · exact addStravaUrls_error_of_mem u (u0 :: us) ss hu hum
          · exact addStravaUrls_error_of_dup (u0 :: us) ss hnd
        obtain ⟨e, he⟩ := hadd
        cases ha : addStravaUrls ss (u0 :: us) with
        | error e2 => exact ⟨e2, rfl⟩
        | ok seen2 => rw [ha] at he; simp at he

theorem generate_placemark_fails_of_strava (env : Env) (st : St) (o : Outing)
    (hsp : ∃ e, stravaPart o st.stravaUrls = .error e) :
    (generate_placemark env st o).1.isOk = false := by
  obtain ⟨e0, he0⟩ := hsp
  unfold generate_placemark
  cases derivedMeta o with
  | error e => rfl
  | ok meta =>
    dsimp only
    cases o.title <|> meta.map (fun m => pyReplace m.2.2 "_" " ") with
    | none => rfl
    | some title =>
      dsimp only
      cases o.date <|> meta.map (fun m => m.1) with
      | none => rfl
      | some dateStr =>
        dsimp only
        by_cases h0 : title.length = 0
        · simp only [if_pos h0]; rfl
        · simp only [if_neg h0]
          cases o.type <|> meta.map (fun m => m.2.1) with
          | none => rfl
          | some ty =>
            dsimp only
            by_cases hsk : (!styleKeys.contains ty) = true
            · simp only [if_pos hsk]; rfl
            · simp only [if_neg hsk]
              by_cases hdf : (!isDateFmt dateStr) = true
              · simp only [if_pos hdf]; rfl
              · simp only [if_neg hdf]
                by_cases hz : numPoints o + numTracks o = 0
                · simp only [if_pos hz]; rfl
                · simp only [if_neg hz]
                  cases mkDateFormatted dateStr with
                  | error e => rfl
                  | ok dateFormatted =>
                    dsimp only
                    cases hx : stravaPart o st.stravaUrls with
                    | error e => rfl
                    | ok v => rw [hx] at he0; simp at he0

theorem processOutings_fails_of_member (env : Env) (o : Outing)
    (hfail : ∀ st : St, (generate_placemark env st o).1.isOk = false) :
    ∀ (outings : List Outing) (st0 : St), o ∈ outings →
      (processOutings env st0 outings).1.isOk = false := by
  intro outings
  induction outings with
  | nil => intro st0 h; simp at h
  | cons p ps ih =>
    intro st0 hmem
    unfold processOutings
    cases hg : generate_placemark env st0 p with
    | mk r n =>
      cases r with
      | error e => rfl
      | ok v =>
        obtain ⟨pm, st2⟩ := v
        dsimp only
        rcases List.mem_cons.mp hmem with rfl | hmem2
        · have hc := hfail st0
          rw [hg] at hc
          simp [Except.isOk, Except.toBool] at hc
        · have hc := ih st2 hmem2
          cases hq : processOutings env st2 ps with
          | mk q m =>
            rw [hq] at hc
            cases q with
            | error f => rfl
            | ok w => simp [Except.isOk, Except.toBool] at hc

/-- C9: duplicate titles or dates are non-fatal — success of the whole
placemark pass does not depend on the already-seen titles/dates sets, and
the notices printed by an outing are exactly the already-seen-title and
already-seen-date lines; a duplicate Strava identifier — already seen
across outings, or repeated within one outing — is fatal; and the concrete
catalog repeating one outing twice still succeeds (its document is built)
while printing both notices. -/
theorem c9_duplicate_policy :
    (∀ (env : Env) (outings : List Outing) (ts ds ts2 ds2 ss : List String),
      (processOutings env ⟨ts, ds, ss⟩ outings).1.isOk =
        (processOutings env ⟨ts2, ds2, ss⟩ outings).1.isOk) ∧
    (∀ (env : Env) (st : St) (o : Outing) meta (title dateStr : String),
      derivedMeta o = .ok meta →
      (o.title <|> meta.map fun m => pyReplace m.2.2 "_" " ") = some title →
      (o.date <|> meta.map fun m => m.1) = some dateStr →
      (generate_placemark env st o).2 =
        (if title ∈ st.titles then [noticeTitle title] else []) ++
        (if dateStr ∈ st.dates then [noticeDate dateStr] else [])) ∧
    (∀ (env : Env) (st : St) (o : Outing) (urls : List String),
      o.stravaUrl = some urls →
      ((∃ u ∈ urls, u ∈ st.stravaUrls) ∨ ¬ urls.Nodup) →
      (generate_placemark env st o).1.isOk = false) ∧
    ((processOutings env0 initSt catalogDup).1.isOk = true ∧
      (processOutings env0 initSt catalogDup).2 =
        [noticeTitle "Solo", noticeDate "2024-01-02"] ∧
      ∃ k ns, buildKml env0 catalogDup = (Except.ok k, ns)) := by
  refine ⟨fun env outings ts ds ts2 ds2 ss =>
            processOutings_state_indep outings env ts ds ts2 ds2 ss,
    fun env st o meta title dateStr hm ht hd =>
      generate_placemark_notices env st o meta title dateStr hm ht hd,
    ?_, rfl, rfl, ⟨_, _, rfl⟩⟩
  intro env st o urls hs hdup
  exact generate_placemark_fails_of_strava env st o
    (stravaPart_error_cases o st.stravaUrls urls hs (Or.inr hdup))

/-- C9 witness: an outing whose Strava identifier was already seen fails
under any state carrying that identifier. -/
theorem c9_duplicate_policy_witness :
    (generate_placemark env0 ⟨[], [], ["123"]⟩ outingStrava).1.isOk = false :=
  c9_duplicate_policy.2.2.1 env0 ⟨[], [], ["123"]⟩ outingStrava ["123"] rfl
    (Or.inl ⟨"123", by decide, by decide⟩)

/-- C10: a present-but-empty `stravaUrl` list is fatal — such an outing can
never produce a placemark, any catalog containing it fails as a whole with
the output file untouched — while absence of the key is accepted (the
concrete valid outing without it succeeds). -/
theorem c10_empty_strava_fatal :
    (∀ (env : Env) (st : St) (o : Outing), o.stravaUrl = some [] →
      (generate_placemark env st o).1.isOk = false) ∧
    (∀ (env : Env) (outings : List Outing) (prev : String) (o : Outing),
      o ∈ outings → o.stravaUrl = some [] →
      (processOutings env initSt outings).1.isOk = false ∧
      (programRun env outings prev).1 = prev) ∧
    ((generate_placemark env0 initSt outingOk).1.isOk = true ∧
      outingOk.stravaUrl = none) := by
  have hfail : ∀ (env : Env) (st : St) (o : Outing), o.stravaUrl = some [] →
      (generate_placemark env st o).1.isOk = false := by
    intro env st o hs
    exact generate_placemark_fails_of_strava env st o
      (stravaPart_error_cases o st.stravaUrls [] hs (Or.inl rfl))
  refine ⟨hfail, ?_, rfl, rfl⟩
  intro env outings prev o hmem hs
  have hp : (processOutings env initSt outings).1.isOk = false :=
    processOutings_fails_of_member env o (fun st => hfail env st o hs) outings initSt hmem
  exact ⟨hp, programRun_prev_of_not_ok env outings prev hp⟩

/-- C10 witness: the empty-list clause applied to the concrete catalog
containing the empty-`stravaUrl` outing. -/
theorem c10_empty_strava_fatal_witness :
    (processOutings env0 initSt [outingEmptyStrava]).1.isOk = false ∧
      (programRun env0 [outingEmptyStrava] "PREV").1 = "PREV" :=
  c10_empty_strava_fatal.2.1 env0 [outingEmptyStrava] "PREV" outingEmptyStrava
    (List.mem_singleton.mpr rfl) rfl
